import Mathlib

/-!
Verification of the batch slot-requester pattern of the notebook-samples
repository against its specification.

The embedding models the Python code of the two notebooks
(`src/sentinelhub/ice_monitoring.ipynb` and `src/unnamed/part_000`):

* the time partition cell
  `tdelta = (end - start) / n_chunks`,
  `edges = [(start + i * tdelta).date().isoformat() for i in range(n_chunks)]`,
  `slots = [(edges[i], edges[i + 1]) for i in range(len(edges) - 1)]`;
* the reduction cells `count_ice_pixels` / `area_covered_ice`;
* the batch download call (the client itself is external library code and is
  modelled from the spec, see `download`).

Python datetimes are represented as integer microseconds counted from the
midnight of proleptic-Gregorian ordinal day 0 (so `datetime.datetime(y, m, d)`
is `toordinal y m d` days times `usPerDay`), exactly the resolution at which
CPython stores datetimes.  `timedelta / int` rounds the microsecond count to
nearest with ties to even (CPython `_divide_and_round`), `int * timedelta` and
datetime addition are exact, and `.date()` floors to a whole day.  Calendar
dates are kept as their ordinals: `isoformat` is an order-isomorphism from
dates to their strings, so equality and ordering of windows transfer verbatim.
-/

namespace NotebookSamples

/-- Microseconds per day, the resolution of CPython datetimes. -/
def usPerDay : Int := 86400000000

/-- CPython `_divide_and_round a b` for `b > 0` (used by `timedelta / int`):
divide rounding to nearest, ties to even.  `fdiv`/`fmod` are Python's
floor-division `divmod`. -/
def divRoundHalfEven (a b : Int) : Int :=
  let q := a.fdiv b
  let r := a.fmod b
  if 2 * r > b ∨ (2 * r = b ∧ q.fmod 2 = 1) then q + 1 else q

/-- `tdelta = (end - start) / n_chunks`, in microseconds. -/
def tdelta (start end_ : Int) (n : Nat) : Int := divRoundHalfEven (end_ - start) n

/-- `.date()` of a datetime given in microseconds: the proleptic-Gregorian
ordinal of its calendar day. -/
def dateOf (t : Int) : Int := t.fdiv usPerDay

/-- `edges = [(start + i * tdelta).date().isoformat() for i in range(n_chunks)]`,
with dates kept as ordinals instead of their isoformat strings. -/
def edges (start end_ : Int) (n : Nat) : List Int :=
  (List.range n).map (fun (i : Nat) => dateOf (start + (i : Int) * tdelta start end_ n))

/-- `slots = [(edges[i], edges[i + 1]) for i in range(len(edges) - 1)]`:
the list of pairs of consecutive edges. -/
def slots (start end_ : Int) (n : Nat) : List (Int × Int) :=
  (edges start end_ n).zip (edges start end_ n).tail

/-- The partition cell including its only failure mode: `(end - start) / 0`
raises ZeroDivisionError in Python, every other input produces a list.
`none` models the raised exception. -/
def slotsChecked (start end_ : Int) (n : Nat) : Option (List (Int × Int)) :=
  if n = 0 then none else some (slots start end_ n)

/-- Gregorian leap-year test, as in CPython `datetime._is_leap`. -/
def isLeap (y : Nat) : Bool := y % 4 == 0 && (y % 100 != 0 || y % 400 == 0)

/-- Cumulative day counts before each month in a non-leap year
(index `m` is the month, index 0 is padding), CPython `_DAYS_BEFORE_MONTH`. -/
def daysBeforeMonthTable : List Nat :=
  [0, 0, 31, 59, 90, 120, 151, 181, 212, 243, 273, 304, 334]

/-- Days before the first of month `m` of year `y`, CPython `_days_before_month`. -/
def daysBeforeMonth (y m : Nat) : Nat :=
  daysBeforeMonthTable.getD m 0 + (if 2 < m ∧ isLeap y then 1 else 0)

/-- Days before January 1 of year `y`, CPython `_days_before_year`. -/
def daysBeforeYear (y : Nat) : Nat :=
  let p := y - 1
  p * 365 + p / 4 - p / 100 + p / 400

/-- `datetime.date(y, m, d).toordinal()`, CPython `_ymd2ord`. -/
def toordinal (y m d : Nat) : Nat := daysBeforeYear y + daysBeforeMonth y m + d

/-- `datetime.datetime(y, m, d)` (midnight) in microseconds from ordinal day 0. -/
def datetimeUS (y m d : Nat) : Int := (toordinal y m d : Int) * usPerDay

/-- A decoded multi-band raster: numpy shape `(height, width, bands)` with
`px r c b` the sample at row `r`, column `c`, band `b`.  The notebook masks
are UINT8, so samples are naturals. -/
structure Raster where
  height : Nat
  width : Nat
  bands : Nat
  px : Nat → Nat → Nat → Nat

/-- `np.sum(image[:, :, b])`: the sum of every sample of band `b`. -/
def bandSum (im : Raster) (b : Nat) : Nat :=
  ((List.range im.height).map
    (fun r => ((List.range im.width).map (fun c => im.px r c b)).sum)).sum

/-- `count_ice_pixels(image)` from the ice-monitoring notebook:
`ice_mask = image[:, :, 4]; return np.sum(ice_mask)` (the successful path). -/
def count_ice_pixels (im : Raster) : Nat := bandSum im 4

/-- `count_ice_pixels` together with numpy's bounds check: `image[:, :, 4]`
raises IndexError unless the raster has more than 4 bands; `none` models the
raised exception. -/
def count_ice_pixelsE (im : Raster) : Option Nat :=
  if 4 < im.bands then some (count_ice_pixels im) else none

/-- `resolution_s1 = 20 * 20  # meters`. -/
def resolution_s1 : Nat := 20 * 20

/-- The time-series cell: for each mask image append
`count_ice_pixels(image) * resolution_s1 / 1000000` (true division, modelled
exactly in ℚ; both notebook values are reproduced exactly by IEEE doubles
as well, the operands being far below 2^53). -/
def area_covered_ice (mask_data : List Raster) : List ℚ :=
  mask_data.map (fun im => ((count_ice_pixels im * resolution_s1 : Nat) : ℚ) / 1000000)

/-- Modelled from the spec: the reduction described by §4.4, "count pixels
along a designated classification band equal to a sentinel value (e.g., 1 for
ice)" — the number of pixels whose band-4 sample equals 1.  Stated from the
spec's words for comparison with the source's `count_ice_pixels`. -/
def sentinelPixelCount (im : Raster) : Nat :=
  ((List.range im.height).map
    (fun r => ((List.range im.width).filter (fun c => im.px r c 4 == 1)).length)).sum

/-- A synthetic mask grid of §8.6: `k` pixels (a `k × 1` grid, five bands as in
`evalscript_mask`) all carrying the classification sentinel 1 in band 4,
zeros elsewhere. -/
def syntheticGrid (k : Nat) : Raster :=
  ⟨k, 1, 5, fun _ _ b => if b = 4 then 1 else 0⟩

/-- A one-pixel five-band raster whose band-4 sample is 2 — a value other
than the classification sentinel. -/
def nonBinaryRaster : Raster := ⟨1, 1, 5, fun _ _ _ => 2⟩

/-- A raster agreeing with `syntheticGrid 1` on shape and on band 4 but
differing on every other band. -/
def altRaster : Raster := ⟨1, 1, 5, fun _ _ b => if b = 4 then 1 else 7⟩

/-- Modelled from the spec: one completion step of the parallel download
executor (§4.3, §5, §9) — the worker that finishes request `i` writes the
result built from request `i` into slot `i` of the pre-sized result
container.  `SentinelHubDownloadClient.download` itself is external library
code, absent from this repository. -/
def writeSlot {α β : Type} (reqs : List α) (f : α → β)
    (acc : Nat → Option β) (i : Nat) : Nat → Option β :=
  fun j => if j = i then reqs[i]?.map f else acc j

/-- Modelled from the spec: run a whole batch, the workers completing in the
arbitrary order `order`; the container starts empty. -/
def runSchedule {α β : Type} (reqs : List α) (f : α → β) (order : List Nat) :
    Nat → Option β :=
  order.foldl (writeSlot reqs f) (fun _ => none)

/-- Modelled from the spec: the result list returned by the batch download —
the container read back in input-index order. -/
def download {α β : Type} (reqs : List α) (f : α → β) (order : List Nat) :
    List (Option β) :=
  (List.range reqs.length).map (runSchedule reqs f order)

/-! ## Helper lemmas -/

lemma length_edges (s e : Int) (n : Nat) : (edges s e n).length = n := by
  unfold edges
  rw [List.length_map, List.length_range]

lemma getElem_edges (s e : Int) (n i : Nat) (h : i < (edges s e n).length) :
    (edges s e n)[i] = dateOf (s + i * tdelta s e n) := by
  unfold edges at h ⊢
  rw [List.getElem_map, List.getElem_range]

lemma length_slots (s e : Int) (n : Nat) : (slots s e n).length = n - 1 := by
  unfold slots
  rw [List.length_zip, List.length_tail, length_edges]
  omega

lemma getElem_slots (s e : Int) (n i : Nat) (h : i < (slots s e n).length) :
    (slots s e n)[i] =
      (dateOf (s + i * tdelta s e n), dateOf (s + ((i : Int) + 1) * tdelta s e n)) := by
  have hl : i < (slots s e n).length := h
  rw [length_slots] at hl
  have h1 : i < (edges s e n).length := by rw [length_edges]; omega
  have h2 : i < (edges s e n).tail.length := by
    rw [List.length_tail, length_edges]; omega
  have h3 : i + 1 < (edges s e n).length := by rw [length_edges]; omega
  show ((edges s e n).zip (edges s e n).tail)[i] = _
  rw [List.getElem_zip, List.getElem_tail, getElem_edges, getElem_edges]
  push_cast
  ring_nf

lemma tdelta_nonneg (s e : Int) (n : Nat) (h : s < e) : 0 ≤ tdelta s e n := by
  have hq : 0 ≤ (e - s).fdiv n := Int.fdiv_nonneg (by omega) (by positivity)
  unfold tdelta divRoundHalfEven
  dsimp only
  split <;> linarith

lemma dateOf_mono {a b : Int} (h : a ≤ b) : dateOf a ≤ dateOf b := by
  unfold dateOf usPerDay
  rw [Int.fdiv_eq_ediv _ (by norm_num), Int.fdiv_eq_ediv _ (by norm_num)]
  exact Int.ediv_le_ediv (by norm_num) h

lemma edge_le_next (s e : Int) (n i : Nat) (h : s < e) :
    dateOf (s + i * tdelta s e n) ≤ dateOf (s + ((i : Int) + 1) * tdelta s e n) := by
  apply dateOf_mono
  have hd := tdelta_nonneg s e n h
  have hstep : (i : Int) * tdelta s e n ≤ ((i : Int) + 1) * tdelta s e n := by
    apply mul_le_mul_of_nonneg_right _ hd
    linarith
  linarith

lemma slots_consec (s e : Int) (n i : Nat) (hi : i + 1 < (slots s e n).length) :
    ((slots s e n).get ⟨i, by omega⟩).2 = ((slots s e n).get ⟨i + 1, hi⟩).1 := by
  rw [List.get_eq_getElem, List.get_eq_getElem, getElem_slots, getElem_slots]
  push_cast
  ring_nf

lemma count_syntheticGrid (k : Nat) : count_ice_pixels (syntheticGrid k) = k := by
  unfold count_ice_pixels bandSum syntheticGrid
  simp

lemma sum_eq_countP_of_le_one (l : List Nat) (h : ∀ x ∈ l, x ≤ 1) :
    l.sum = l.countP (fun x => x == 1) := by
  induction l with
  | nil => rfl
  | cons a t ih =>
    have ha : a ≤ 1 := h a (List.mem_cons_self a t)
    have ht := ih (fun x hx => h x (List.mem_cons_of_mem a hx))
    rw [List.sum_cons, List.countP_cons, ht]
    interval_cases a
    · simp
    · simp
      omega

lemma foldl_writeSlot {α β : Type} (reqs : List α) (f : α → β) (order : List Nat)
    (acc : Nat → Option β) (j : Nat) :
    (order.foldl (writeSlot reqs f) acc) j =
      if j ∈ order then reqs[j]?.map f else acc j := by
  induction order generalizing acc with
  | nil => simp
  | cons i rest ih =>
    rw [List.foldl_cons, ih]
    by_cases hjr : j ∈ rest
    · simp [hjr]
    · by_cases hji : j = i
      · subst hji; simp [hjr, writeSlot]
      · simp [hjr, hji, writeSlot]

/-! ## Claim theorems -/

/-- C1, counterexample: the notebook's own input `partition(2022-09-01,
2023-04-30, 17)` is valid (`end > start`, `n_chunks ≥ 1`) yet the code does
not return `n_chunks` windows: `range(n_chunks)` generates only `n_chunks`
edges, hence `n_chunks - 1 = 16` windows. -/
theorem slots_seventeen_chunks_not_seventeen_windows :
    datetimeUS 2022 9 1 < datetimeUS 2023 4 30 ∧ 1 ≤ 17 ∧
    ¬ (slots (datetimeUS 2022 9 1) (datetimeUS 2023 4 30) 17).length = 17 :=
  ⟨by decide, by decide, by decide⟩

/-- C1, amended: for every pair of dates with `end > start` and every
`n_chunks ≥ 1`, the partition returns an ordered sequence of exactly
`n_chunks - 1` TimeWindow values. -/
theorem slots_returns_pred_n_chunks_windows (s e : Int) (n : Nat)
    (h : s < e) (hn : 1 ≤ n) :
    (slots s e n).length = n - 1 :=
  length_slots s e n

/-- Witness for C1's amended theorem at the 2019 notebook input. -/
theorem slots_returns_pred_n_chunks_windows_witness :
    (slots (datetimeUS 2019 1 1) (datetimeUS 2019 12 31) 13).length = 12 :=
  slots_returns_pred_n_chunks_windows (datetimeUS 2019 1 1) (datetimeUS 2019 12 31) 13
    (by decide) (by decide)

/-- C2, counterexample: at the notebook's own valid input the last window
does not end at `end` — the final edge is
`start + (n_chunks - 1) * tdelta`, dated 2023-04-15, not 2023-04-30 — so the
windows do not cover `[start, end]`. -/
theorem slots_last_window_misses_range_end :
    (slots (datetimeUS 2022 9 1) (datetimeUS 2023 4 30) 17).getLast?.map Prod.snd
      ≠ some (dateOf (datetimeUS 2023 4 30)) := by decide

/-- C2, amended: for `end > start` and `n_chunks ≥ 2` the first window starts
at `date(start)` and consecutive windows share their boundary (no gaps, no
overlaps), but the last window ends at
`date(start + (n_chunks - 1) * tdelta)`, which in general is not `date(end)`:
the partition does not cover `[start, end]`. -/
theorem slots_first_last_contiguous (s e : Int) (n : Nat) (h : s < e) (hn : 2 ≤ n) :
    ((slots s e n).get ⟨0, by rw [length_slots]; omega⟩).1 = dateOf s ∧
    ((slots s e n).get ⟨n - 2, by rw [length_slots]; omega⟩).2
      = dateOf (s + ((n : Int) - 1) * tdelta s e n) ∧
    ∀ i (hi : i + 1 < (slots s e n).length),
      ((slots s e n).get ⟨i, by omega⟩).2 = ((slots s e n).get ⟨i + 1, hi⟩).1 := by
  refine ⟨?_, ?_, fun i hi => slots_consec s e n i hi⟩
  · rw [List.get_eq_getElem, getElem_slots]
    norm_num
  · rw [List.get_eq_getElem, getElem_slots]
    have : ((n - 2 : Nat) : Int) + 1 = (n : Int) - 1 := by
      push_cast [Nat.cast_sub hn]
      ring
    rw [this]

/-- Witness for C2's amended theorem at the notebook input. -/
theorem slots_first_last_contiguous_witness :
    ((slots (datetimeUS 2022 9 1) (datetimeUS 2023 4 30) 17).get
        ⟨0, by rw [length_slots]; omega⟩).1 = dateOf (datetimeUS 2022 9 1) ∧
    ((slots (datetimeUS 2022 9 1) (datetimeUS 2023 4 30) 17).get
        ⟨15, by rw [length_slots]; omega⟩).2
      = dateOf (datetimeUS 2022 9 1
          + ((17 : Int) - 1) * tdelta (datetimeUS 2022 9 1) (datetimeUS 2023 4 30) 17) := by
  have h := slots_first_last_contiguous (datetimeUS 2022 9 1) (datetimeUS 2023 4 30) 17
    (by decide) (by decide)
  exact ⟨h.1, h.2.1⟩

/-- C3: for every valid input and every index `i` with a successor window,
window `i` ends exactly where window `i + 1` starts, and the start dates are
ordered ascending (non-decreasing; the spec itself notes that strictness
fails when date truncation collapses two edges, see C5). -/
theorem slots_contiguous_and_ordered (s e : Int) (n : Nat) (h : s < e) (hn : 1 ≤ n)
    (i : Nat) (hi : i + 1 < (slots s e n).length) :
    ((slots s e n).get ⟨i, by omega⟩).2 = ((slots s e n).get ⟨i + 1, hi⟩).1 ∧
    ((slots s e n).get ⟨i, by omega⟩).1 ≤ ((slots s e n).get ⟨i + 1, hi⟩).1 := by
  refine ⟨slots_consec s e n i hi, ?_⟩
  rw [List.get_eq_getElem, List.get_eq_getElem, getElem_slots, getElem_slots]
  push_cast
  exact edge_le_next s e n i h

/-- Witness for C3 at the 2019 notebook input, adjacent windows 0 and 1. -/
theorem slots_contiguous_and_ordered_witness :
    ((slots (datetimeUS 2019 1 1) (datetimeUS 2019 12 31) 13).get
        ⟨0, by rw [length_slots]; omega⟩).2
      = ((slots (datetimeUS 2019 1 1) (datetimeUS 2019 12 31) 13).get
        ⟨1, by rw [length_slots]; omega⟩).1 ∧
    ((slots (datetimeUS 2019 1 1) (datetimeUS 2019 12 31) 13).get
        ⟨0, by rw [length_slots]; omega⟩).1
      ≤ ((slots (datetimeUS 2019 1 1) (datetimeUS 2019 12 31) 13).get
        ⟨1, by rw [length_slots]; omega⟩).1 :=
  slots_contiguous_and_ordered (datetimeUS 2019 1 1) (datetimeUS 2019 12 31) 13
    (by decide) (by decide) 0 (by rw [length_slots]; omega)

/-- C4, counterexample: with `end = start` (precondition violated) and
`n_chunks = 2` the partition code raises nothing and still returns a window
sequence — there is no validation and no `InvalidRangeError`. -/
theorem slots_no_validation_on_empty_range :
    datetimeUS 2020 1 1 ≤ datetimeUS 2020 1 1 ∧
    slotsChecked (datetimeUS 2020 1 1) (datetimeUS 2020 1 1) 2
      = some [((toordinal 2020 1 1 : Int), (toordinal 2020 1 1 : Int))] :=
  ⟨le_refl _, by decide⟩

/-- C4, amended: the partition code performs no range validation; it fails
precisely when `n_chunks = 0` (Python ZeroDivisionError in
`(end - start) / n_chunks`, not an `InvalidRangeError`), and for every other
input — `end ≤ start` included — it returns a window sequence. -/
theorem slotsChecked_fails_iff_zero_chunks (s e : Int) (n : Nat) :
    slotsChecked s e n = none ↔ n = 0 := by
  unfold slotsChecked
  split <;> simp_all

/-- C5: there is a valid input (`end > start`, `n_chunks ≥ 1`) on which the
partition produces zero-length windows — consecutive edges truncated to the
same calendar date — and the code neither fails nor collapses the
duplicates: the full `n_chunks - 1` windows are returned. -/
theorem zero_length_window_exists : ∃ (s e : Int) (n : Nat), s < e ∧ 1 ≤ n ∧
    ∃ l, slotsChecked s e n = some l ∧ l.length = n - 1 ∧ ∃ w ∈ l, w.1 = w.2 := by
  refine ⟨datetimeUS 2019 1 1, datetimeUS 2019 1 2, 3, by decide, by decide,
    [((toordinal 2019 1 1 : Int), (toordinal 2019 1 1 : Int)),
     ((toordinal 2019 1 1 : Int), (toordinal 2019 1 1 : Int))], by decide, by decide,
    ((toordinal 2019 1 1 : Int), (toordinal 2019 1 1 : Int)), by decide, rfl⟩

/-- C6: the end-to-end scenario.  `partition(2022-09-01, 2023-04-30, 17)`
yields 16 windows; reducing 16 synthetic grids, grid `i` carrying `i * 100`
sentinel pixels at 20×20 m resolution, yields the series whose scalar at
index `i` is `i * 100 * 400 / 1000000` km², strictly increasing with `i`. -/
theorem end_to_end_ice_scenario :
    (slots (datetimeUS 2022 9 1) (datetimeUS 2023 4 30) 17).length = 16 ∧
    area_covered_ice ((List.range 16).map (fun i => syntheticGrid (i * 100)))
      = (List.range 16).map (fun i => ((i * 100 * 400 : Nat) : ℚ) / 1000000) ∧
    List.Chain' (· < ·)
      (area_covered_ice ((List.range 16).map (fun i => syntheticGrid (i * 100)))) := by
  have hmap : area_covered_ice ((List.range 16).map (fun i => syntheticGrid (i * 100)))
      = (List.range 16).map (fun i => ((i * 100 * 400 : Nat) : ℚ) / 1000000) := by
    unfold area_covered_ice
    rw [List.map_map]
    apply List.map_congr_left
    intro i _
    simp only [Function.comp_apply, count_syntheticGrid, resolution_s1]
  refine ⟨by decide, hmap, ?_⟩
  rw [hmap, List.chain'_map, show (16 : Nat) = 15 + 1 from rfl, List.chain'_range_succ]
  intro m hm
  have hlt : ((m * 100 * 400 : Nat) : ℚ) < (((m + 1) * 100 * 400 : Nat) : ℚ) := by
    push_cast
    nlinarith
  exact div_lt_div_of_pos_right hlt (by norm_num)

/-- C7, counterexample: on a raster whose single band-4 sample is 2 the code
does not return sentinel-count × area — `np.sum` adds the sample values, so
the non-sentinel value 2 contributes 2 instead of nothing. -/
theorem area_not_sentinel_count_at_nonbinary :
    area_covered_ice [nonBinaryRaster]
      ≠ [((sentinelPixelCount nonBinaryRaster * resolution_s1 : Nat) : ℚ) / 1000000] := by
  have h1 : count_ice_pixels nonBinaryRaster = 2 := by decide
  have h2 : sentinelPixelCount nonBinaryRaster = 0 := by decide
  simp [area_covered_ice, h1, h2, resolution_s1]

/-- C7, amended: the reduction multiplies the SUM of the band-4 sample values
by the 20×20 m pixel area and converts to km²; each pixel contributes its
sample value, so value-0 pixels contribute nothing, and whenever band 4 is
0/1-valued (as the notebook's evalscript guarantees) the sum equals the
count of sentinel-1 pixels claimed by the spec. -/
theorem area_sums_band_values (im : Raster) :
    area_covered_ice [im]
      = [((count_ice_pixels im * resolution_s1 : Nat) : ℚ) / 1000000] ∧
    ((∀ r c, im.px r c 4 ≤ 1) → count_ice_pixels im = sentinelPixelCount im) := by
  constructor
  · simp [area_covered_ice]
  · intro hb
    unfold count_ice_pixels bandSum sentinelPixelCount
    apply congrArg List.sum
    apply List.map_congr_left
    intro r _
    rw [sum_eq_countP_of_le_one]
    · rw [List.countP_map, List.countP_eq_length_filter]
      rfl
    · intro x hx
      simp only [List.mem_map] at hx
      obtain ⟨c, _, rfl⟩ := hx
      exact hb r c

/-- Witness for C7's amended theorem at a binary-mask grid. -/
theorem area_sums_band_values_witness :
    area_covered_ice [syntheticGrid 3]
      = [((count_ice_pixels (syntheticGrid 3) * resolution_s1 : Nat) : ℚ) / 1000000] ∧
    count_ice_pixels (syntheticGrid 3) = sentinelPixelCount (syntheticGrid 3) :=
  ⟨(area_sums_band_values (syntheticGrid 3)).1,
   (area_sums_band_values (syntheticGrid 3)).2 (fun r c => by simp [syntheticGrid])⟩

/-- C8: for every request list and every completion order of the workers that
is a permutation of the request indices, the batch download returns the
result of request `i` at output position `i` — the output is independent of
completion timing. -/
theorem download_preserves_order {α β : Type} (reqs : List α) (f : α → β)
    (order : List Nat) (hperm : order.Perm (List.range reqs.length)) :
    download reqs f order = reqs.map (fun r => some (f r)) := by
  apply List.ext_getElem
  · simp [download]
  · intro i h1 h2
    have hi : i < reqs.length := by simpa [download] using h1
    have hmem : i ∈ order := hperm.mem_iff.mpr (List.mem_range.mpr hi)
    simp only [download, List.getElem_map, List.getElem_range, runSchedule]
    rw [foldl_writeSlot]
    simp only [hmem, if_true, List.getElem?_eq_getElem hi, List.getElem_map]
    rfl

/-- Witness for C8: three requests completing in the order 2, 0, 1 still
produce the results in input order. -/
theorem download_preserves_order_witness :
    download [10, 20, 30] (fun (x : Nat) => x + 1) [2, 0, 1]
      = [some 11, some 21, some 31] := by
  rw [download_preserves_order [10, 20, 30] (fun (x : Nat) => x + 1) [2, 0, 1] (by decide)]
  rfl

/-- C9: with `n_chunks = 1` the partition code produces no windows at all:
`range(1)` yields a single edge and no pair of consecutive edges exists. -/
theorem slots_single_chunk_empty (s e : Int) (h : s < e) : slots s e 1 = [] :=
  List.length_eq_zero.mp (length_slots s e 1)

/-- Witness for C9 at a concrete valid pair of dates. -/
theorem slots_single_chunk_empty_witness :
    slots (datetimeUS 2020 1 1) (datetimeUS 2020 6 1) 1 = [] :=
  slots_single_chunk_empty (datetimeUS 2020 1 1) (datetimeUS 2020 6 1) (by decide)

/-- C10: the reduction is defined (returns a count) precisely when the raster
has at least 5 bands — numpy raises IndexError for `image[:, :, 4]`
otherwise — and it reads only band 4: any two rasters of equal shape
agreeing on band 4 reduce identically, whatever the other bands hold. -/
theorem count_reads_only_band4_and_bounds :
    (∀ im : Raster, (count_ice_pixelsE im).isSome ↔ 5 ≤ im.bands) ∧
    (∀ im1 im2 : Raster, im1.height = im2.height → im1.width = im2.width →
      im1.bands = im2.bands → (∀ r c, im1.px r c 4 = im2.px r c 4) →
      count_ice_pixelsE im1 = count_ice_pixelsE im2) := by
  constructor
  · intro im
    unfold count_ice_pixelsE
    split
    · simp
      omega
    · simp
      omega
  · intro im1 im2 hh hw hb hp
    have hsum : bandSum im1 4 = bandSum im2 4 := by
      unfold bandSum
      rw [hh, hw]
      apply congrArg List.sum
      apply List.map_congr_left
      intro r _
      apply congrArg List.sum
      apply List.map_congr_left
      intro c _
      exact hp r c
    unfold count_ice_pixelsE count_ice_pixels
    rw [hb, hsum]

/-- Witness for C10: `altRaster` and `syntheticGrid 1` share shape and
band 4 and reduce identically; the reduction is defined on the 5-band grid. -/
theorem count_reads_only_band4_and_bounds_witness :
    count_ice_pixelsE altRaster = count_ice_pixelsE (syntheticGrid 1) ∧
    (count_ice_pixelsE (syntheticGrid 1)).isSome :=
  ⟨count_reads_only_band4_and_bounds.2 altRaster (syntheticGrid 1) rfl rfl rfl
    (fun r c => rfl),
   (count_reads_only_band4_and_bounds.1 (syntheticGrid 1)).mpr (by decide)⟩

end NotebookSamples
